import Mathlib

set_option maxRecDepth 100000

/-!
# The transcode-hash-dedupe-upload pipeline, formalised

A shallow embedding of the core pipeline of the image-optimizer service:

* `CoreImageService` (`src/utils/google_cdn.ts`): content hashing
  (`generateHash`, SHA-256 over the raw bytes), storage-key derivation
  (`generateFileName`), URL derivation (`getImageUrls`), deduplicating
  upload (`uploadImage`), and remote download to a temp file
  (`saveToLocalImage`).
* The variant pipeline (`src/utils/optimizer.ts`): `optimizeImages`,
  `uploadToCDN`, `createOptimizedImages`, including their temp-file
  bookkeeping and `finally`-block cleanup.
* The transcoder (`src/features/images/image_optimizer.ts`): the AVIF
  intermediate-conversion fallback chain and the resize policy.
* The upload route's quality parsing (`src/routes/optimize.ts`).

External platform capabilities (node:crypto, node:path, sharp, the GCS
blob store, the filesystem, fetch) are given explicit semantics: SHA-256
is implemented in full (FIPS 180-4), node:path's posix `extname` /
`basename` / `dirname` are implemented on character lists, the blob
store and the local filesystem are association lists from path to
content, and fetch / sharp / playwright outcomes are oracle parameters.

Bytes are naturals (one per octet); machine words are naturals reduced
mod 2^32 where the source's 32-bit arithmetic demands it.
-/

namespace ImageOpt

/-! ## SHA-256 (FIPS 180-4)

`crypto.createHash("sha256")`, the digest used by
`CoreImageService.generateHash` (`src/utils/google_cdn.ts` lines 41-45).
A message is a list of bytes; the digest is the usual lowercase hex
string of the eight 32-bit state words. -/

/-- 2^32, the modulus of the 32-bit word arithmetic. -/
def w32 : Nat := 4294967296

/-- 32-bit modular addition. -/
def add32 (a b : Nat) : Nat := (a + b) % w32

/-- 32-bit right rotation. -/
def rotr32 (x n : Nat) : Nat :=
  ((x >>> n) ||| ((x <<< (32 - n)) % w32)) % w32

/-- 32-bit bitwise complement. -/
def not32 (x : Nat) : Nat := x ^^^ 4294967295

/-- SHA-256 choice function. -/
def shaCh (e f g : Nat) : Nat := (e &&& f) ^^^ (not32 e &&& g)

/-- SHA-256 majority function. -/
def shaMaj (a b c : Nat) : Nat := (a &&& b) ^^^ (a &&& c) ^^^ (b &&& c)

/-- SHA-256 Σ0. -/
def bigSigma0 (x : Nat) : Nat := rotr32 x 2 ^^^ rotr32 x 13 ^^^ rotr32 x 22

/-- SHA-256 Σ1. -/
def bigSigma1 (x : Nat) : Nat := rotr32 x 6 ^^^ rotr32 x 11 ^^^ rotr32 x 25

/-- SHA-256 σ0. -/
def smallSigma0 (x : Nat) : Nat := rotr32 x 7 ^^^ rotr32 x 18 ^^^ (x >>> 3)

/-- SHA-256 σ1. -/
def smallSigma1 (x : Nat) : Nat := rotr32 x 17 ^^^ rotr32 x 19 ^^^ (x >>> 10)

/-- The 64 SHA-256 round constants of FIPS 180-4 (the fractional parts
of the cube roots of the first 64 primes), in decimal. -/
def shaK : List Nat :=
  [1116352408, 1899447441, 3049323471, 3921009573, 961987163,
   1508970993, 2453635748, 2870763221, 3624381080, 310598401,
   607225278, 1426881987, 1925078388, 2162078206, 2614888103,
   3248222580, 3835390401, 4022224774, 264347078, 604807628,
   770255983, 1249150122, 1555081692, 1996064986, 2554220882,
   2821834349, 2952996808, 3210313671, 3336571891, 3584528711,
   113926993, 338241895, 666307205, 773529912, 1294757372,
   1396182291, 1695183700, 1986661051, 2177026350, 2456956037,
   2730485921, 2820302411, 3259730800, 3345764771, 3516065817,
   3600352804, 4094571909, 275423344, 430227734, 506948616,
   659060556, 883997877, 958139571, 1322822218, 1537002063,
   1747873779, 1955562222, 2024104815, 2227730452, 2361852424,
   2428436474, 2756734187, 3204031479, 3329325298]

/-- The SHA-256 initial state of FIPS 180-4, in decimal. -/
def shaH0 : List Nat :=
  [1779033703, 3144134277, 1013904242, 2773480762, 1359893119,
   2600822924, 528734635, 1541459225]

/-- Pad a byte message: append 0x80, then zeros to 56 mod 64, then the
bit length as 8 big-endian bytes. -/
def padMessage (msg : List Nat) : List Nat :=
  let bitLen := msg.length * 8
  let zeros := (120 - ((msg.length + 1) % 64)) % 64
  msg ++ 0x80 :: List.replicate zeros 0 ++
    (List.range 8).map (fun i => (bitLen >>> (56 - 8 * i)) % 256)

/-- Split a byte list into 64-byte blocks, one element at a time (the
accumulator holds the current partial block in reverse). -/
def chunk64Aux : List Nat → List Nat → List (List Nat)
  | [], acc => if acc = [] then [] else [acc.reverse]
  | x :: xs, acc =>
    if acc.length = 63 then (x :: acc).reverse :: chunk64Aux xs []
    else chunk64Aux xs (x :: acc)

/-- Split a byte list into 64-byte blocks. -/
def chunk64 (l : List Nat) : List (List Nat) := chunk64Aux l []

/-- The 64-entry message schedule of one 64-byte block. -/
def messageSchedule (block : List Nat) : Array Nat :=
  let ws0 : Array Nat := (Array.range 16).map fun i =>
    block.getD (4 * i) 0 * 16777216 + block.getD (4 * i + 1) 0 * 65536 +
      block.getD (4 * i + 2) 0 * 256 + block.getD (4 * i + 3) 0
  (List.range 48).foldl
    (fun ws j =>
      let i := j + 16
      ws.push (add32 (add32 (smallSigma1 (ws.getD (i - 2) 0)) (ws.getD (i - 7) 0))
        (add32 (smallSigma0 (ws.getD (i - 15) 0)) (ws.getD (i - 16) 0))))
    ws0

/-- The SHA-256 compression of one block into the running state. -/
def compressBlock (hs : List Nat) (block : List Nat) : List Nat :=
  let ws := messageSchedule block
  let st := (List.range 64).foldl
    (fun (s : Nat × Nat × Nat × Nat × Nat × Nat × Nat × Nat) i =>
      let (a, b, c, d, e, f, g, h) := s
      let t1 := add32 h (add32 (bigSigma1 e)
        (add32 (shaCh e f g) (add32 (shaK.getD i 0) (ws.getD i 0))))
      let t2 := add32 (bigSigma0 a) (shaMaj a b c)
      (add32 t1 t2, a, b, c, add32 d t1, e, f, g))
    (hs.getD 0 0, hs.getD 1 0, hs.getD 2 0, hs.getD 3 0,
     hs.getD 4 0, hs.getD 5 0, hs.getD 6 0, hs.getD 7 0)
  [add32 (hs.getD 0 0) st.1, add32 (hs.getD 1 0) st.2.1,
   add32 (hs.getD 2 0) st.2.2.1, add32 (hs.getD 3 0) st.2.2.2.1,
   add32 (hs.getD 4 0) st.2.2.2.2.1, add32 (hs.getD 5 0) st.2.2.2.2.2.1,
   add32 (hs.getD 6 0) st.2.2.2.2.2.2.1, add32 (hs.getD 7 0) st.2.2.2.2.2.2.2]

/-- The eight 32-bit state words of the SHA-256 digest of a byte message. -/
def sha256words (msg : List Nat) : List Nat :=
  (chunk64 (padMessage msg)).foldl compressBlock shaH0

/-- A nibble as a lowercase hex character. -/
def hexChar (n : Nat) : Char :=
  if n < 10 then Char.ofNat (48 + n) else Char.ofNat (87 + n)

/-- A 32-bit word as 8 lowercase hex characters, most significant first. -/
def word32HexChars (x : Nat) : List Char :=
  (List.range 8).map fun i => hexChar ((x >>> (28 - 4 * i)) &&& 15)

/-- The SHA-256 digest of a byte message as a 64-character lowercase hex
string — the value of `crypto.createHash("sha256").update(content).digest("hex")`. -/
def sha256hex (msg : List Nat) : String :=
  String.mk ((sha256words msg).map word32HexChars).flatten

/-! ## node:path, posix semantics

`path.extname`, `path.basename` and `path.dirname` as used by
`CoreImageService`. These are platform functions; they are modelled on
character lists following Node's documented posix behaviour on the
well-formed paths the service builds (`{folder}/{hex-digest}{.ext}`).
Node's special cases for repeated or trailing slashes are not needed by
any call site and are not modelled. -/

/-- Split a character list at the LAST occurrence of `c`:
`some (before, after)`, or `none` when `c` does not occur. -/
def splitLastChar (c : Char) : List Char → Option (List Char × List Char)
  | [] => none
  | x :: xs =>
    match splitLastChar c xs with
    | some (pre, post) => some (x :: pre, post)
    | none => if x = c then some ([], xs) else none

/-- The part after the last slash (`path.basename` with no extension
argument), on character lists. -/
def basenameL (l : List Char) : List Char :=
  match splitLastChar '/' l with
  | some (_, post) => post
  | none => l

/-- `path.extname`: from the last dot of the basename, unless that dot
is its first character (hidden files have no extension). -/
def extnameL (l : List Char) : List Char :=
  match splitLastChar '.' (basenameL l) with
  | some (pre, post) => if pre = [] then [] else '.' :: post
  | none => []

/-- `path.dirname`: everything before the last slash; `.` when there is
no slash, `/` when the only slash is leading. -/
def dirnameL (l : List Char) : List Char :=
  match splitLastChar '/' l with
  | some (pre, _) => if pre = [] then ['/'] else pre
  | none => ['.']

/-- `path.basename(p, ext)`: the basename, with `ext` stripped when it
is a proper suffix of it. -/
def basenameExtL (l ext : List Char) : List Char :=
  let b := basenameL l
  if ext ≠ [] ∧ ext.length < b.length ∧ ext.isSuffixOf b then
    b.take (b.length - ext.length)
  else b

/-- `path.extname` on strings. -/
def extnameStr (s : String) : String := String.mk (extnameL s.data)

/-- `path.basename` on strings. -/
def basenameStr (s : String) : String := String.mk (basenameL s.data)

/-- `path.basename(p, ext)` on strings. -/
def basenameExtStr (s ext : String) : String :=
  String.mk (basenameExtL s.data ext.data)

/-- `path.dirname` on strings. -/
def dirnameStr (s : String) : String := String.mk (dirnameL s.data)

/-- `.replace(/\\/g, "/")`: normalize backslashes to slashes. -/
def replaceBackslash (s : String) : String :=
  String.mk (s.data.map fun c => if c = '\\' then '/' else c)

/-! ## CoreImageService (`src/utils/google_cdn.ts`)

The blob store is an association list from destination key to stored
object; the first matching entry wins, and a write prepends. The GCS
client's `exists` / `save` calls are the lookup and the prepend. The
clock (`new Date().toISOString()`) is an explicit `now` argument. -/

/-- The three URL forms of a stored object. -/
structure ImageUrls where
  cdnUrl : String
  directUrl : String
  gsUrl : String
deriving DecidableEq, Repr

/-- The service configuration: bucket name and resolved CDN base URL
(the constructor resolves `cdnUrl || process.env.CDN_BASE_URL ||
"https://storage.googleapis.com/" + bucketName`; the resolved value is
what the model carries). -/
structure ServiceConfig where
  bucketName : String
  cdnUrl : String
deriving DecidableEq, Repr

/-- Upload options; absent fields take the defaults applied inside
`uploadImage` by destructuring. -/
structure CoreUploadOptions where
  makePublic : Option Bool := none
  cacheControl : Option String := none
  contentType : Option String := none
  metadata : Option (List (String × String)) := none
deriving DecidableEq, Repr

/-- A stored object: the metadata record passed to `gcsFile.save`
together with the bytes. -/
structure StoredFile where
  contentType : String
  cacheControl : String
  metadata : List (String × String)
  customMetadata : List (String × String)
  content : List Nat
deriving DecidableEq, Repr

/-- The blob store: destination key to stored object, first match wins. -/
abbrev Store := List (String × StoredFile)

/-- `gcsFile.exists()`: is the key present? -/
def storeHas (store : Store) (key : String) : Bool :=
  store.any fun e => e.1 == key

/-- `CoreImageService.generateHash` (lines 41-45): the SHA-256 hex digest
of the raw content bytes — and of nothing else. -/
def generateHash (content : List Nat) : String := sha256hex content

/-- `CoreImageService.generateFileName` (lines 47-50): digest plus the
extension of the original file name. -/
def generateFileName (originalFileName : String) (hash : String) : String :=
  hash ++ extnameStr originalFileName

/-- `CoreImageService.getImageUrls` (lines 52-68): re-split the path into
folder, digest and extension and derive the CDN, direct and `gs://`
URLs. A pure function of the path and the configuration. -/
def getImageUrls (svc : ServiceConfig) (imagePath : String) : ImageUrls :=
  let hash := basenameExtStr imagePath (extnameStr imagePath)
  let extension := extnameStr imagePath
  let folder := replaceBackslash (dirnameStr imagePath)
  let objectPath := folder ++ "/" ++ hash ++ extension
  { cdnUrl := svc.cdnUrl ++ "/" ++ objectPath
    directUrl := "https://storage.googleapis.com/" ++ svc.bucketName ++ "/" ++ objectPath
    gsUrl := "gs://" ++ svc.bucketName ++ "/" ++ objectPath }

/-- The destination key `uploadImage` writes to (lines 82-86): the
normalized folder, a slash, and the content digest with the uploaded
file's extension. -/
def destinationFor (filePath folder : String) (content : List Nat) : String :=
  let hash := generateHash content
  let uniqueFileName := generateFileName (basenameStr filePath) hash
  replaceBackslash folder ++ "/" ++ uniqueFileName

/-- The metadata record attached on a fresh write (lines 96-113). -/
def storedFileFor (opts : CoreUploadOptions) (fileContent : List Nat)
    (now : String) : StoredFile :=
  { contentType := opts.contentType.getD "image/webp"
    cacheControl := opts.cacheControl.getD
      "public, max-age=31536000, immutable, must-revalidate, stale-while-revalidate=86400"
    metadata := ("fullHash", generateHash fileContent) :: ("uploadedAt", now) ::
      (opts.metadata.getD [])
    customMetadata := [("serving-versioned", "true"),
      ("cdn-cache-control", "max-age=31536000"), ("edge-cache-ttl", "31536000")]
    content := fileContent }

/-- `CoreImageService.uploadImage` (lines 70-116). `fileContent` is what
`Bun.file(filePath).arrayBuffer()` reads; `now` is the clock. If the
destination key already exists the store is returned untouched,
otherwise the object is written. Either way the URLs of the destination
are returned. -/
def uploadImage (svc : ServiceConfig) (store : Store) (filePath : String)
    (fileContent : List Nat) (folder : String) (opts : CoreUploadOptions)
    (now : String) : ImageUrls × Store :=
  let destination := destinationFor filePath folder fileContent
  if storeHas store destination then
    (getImageUrls svc destination, store)
  else
    (getImageUrls svc destination,
      (destination, storedFileFor opts fileContent now) :: store)

/-! ## The local filesystem

An association list from path to byte content, first match wins;
`Bun.write` prepends. The repository's "cleanup" is `Bun.write(file, "")`,
i.e. a write of the empty content — the entry stays present. -/

/-- The scratch filesystem. -/
abbrev Disk := List (String × List Nat)

/-- `Bun.write`: (over)write a path. -/
def diskWrite (d : Disk) (p : String) (c : List Nat) : Disk := (p, c) :: d

/-- Read a path: `some content` when the file exists. -/
def diskRead (d : Disk) (p : String) : Option (List Nat) :=
  (d.find? fun e => e.1 == p).map fun e => e.2

/-- `String.startsWith`, on the character-list model (core's
byte-position implementation is well-founded-recursive and opaque to the
kernel; prefix testing on the character lists is the same function). -/
def strStartsWith (s pre : String) : Bool := pre.data.isPrefixOf s.data

/-- `CoreImageService.saveToLocalImage` (lines 118-136): download the
URL (`fetched` is the network oracle), hash the bytes, and save them
under `tempDir/{digest}{ext}` where the extension comes from
`path.extname(optimizedImageUrl)` — the URL string, not the content. -/
def saveToLocalImage (fetched : String → List Nat) (d : Disk)
    (optimizedImageUrl tempDir : String) : String × Disk :=
  let buffer := fetched optimizedImageUrl
  let hash := generateHash buffer
  let extension := extnameStr optimizedImageUrl
  let uniqueFileName := generateFileName ("." ++ extension) hash
  let tempFilePath := tempDir ++ "/" ++ uniqueFileName
  (tempFilePath, diskWrite d tempFilePath buffer)

/-! ## The variant pipeline (`src/utils/optimizer.ts`)

`optimizeImages` and `uploadToCDN`, with their temp-file bookkeeping and
`finally` blocks. The browser-automation transcoder
(`optimizeImageWithPlaywright`) and the network are oracles in `OptEnv`:
`pw` gives the per-variant outcome, `fetched` the bytes a URL downloads
to. The logging calls carry no state and are omitted. -/

/-- The three variant names. -/
inductive ImageType
  | thumbnail
  | full
  | preview
deriving DecidableEq, Repr

/-- The string name of a variant. -/
def typeName : ImageType → String
  | ImageType.thumbnail => "thumbnail"
  | ImageType.full => "full"
  | ImageType.preview => "preview"

/-- A variant configuration (lines 42-46). -/
structure ImageConfig where
  quality : Nat
  maxWidth : Nat
  maxSizeMB : Nat
deriving DecidableEq, Repr

/-- The fixed per-variant configurations (lines 48-64). -/
def imageConfigs : ImageType → ImageConfig
  | ImageType.thumbnail => { quality := 100, maxWidth := 200, maxSizeMB := 1 }
  | ImageType.full => { quality := 75, maxWidth := 1200, maxSizeMB := 1 }
  | ImageType.preview => { quality := 75, maxWidth := 720, maxSizeMB := 1 }

/-- The outcome of one `optimizeImageWithPlaywright` call (the
compression-ratio reporting field is not consumed by any claim and is
omitted). -/
structure PwResult where
  success : Bool
  error : String
  url : String
  size : Nat
  width : Nat
  height : Nat
  format : String
  originalSize : Option Nat
deriving DecidableEq, Repr

/-- The oracles of one pipeline run: network downloads and per-variant
transcode outcomes. -/
structure OptEnv where
  fetched : String → List Nat
  pw : ImageType → PwResult

/-- `OptimizedImageWithConfig` (lines 175-179): the transcode outcome
plus variant name, config and temp file path. -/
structure OptimizedWithConfig where
  result : PwResult
  type : ImageType
  config : ImageConfig
  tempFilePath : String
deriving DecidableEq, Repr

/-- The scratch directory for per-variant intermediates (line 36). -/
def TMP_PRE_PROCESSED_IMAGES_DIR : String := "./tmp/pre-processed-images"

/-- The scratch directory for downloaded sources (line 37). -/
def TMP_INPUT_IMAGES_DIR : String := "./tmp/input-images"

/-- The per-variant loop of `optimizeImages` (lines 206-265): a failed
variant throws immediately (`Except.error`), discarding the accumulated
successes; a successful one downloads the optimized bytes to a temp
file and continues. -/
def optimizeLoop (env : OptEnv) :
    List ImageType → Disk → Except String (List OptimizedWithConfig) × Disk
  | [], d => (Except.ok [], d)
  | t :: ts, d =>
    let r := env.pw t
    if r.success then
      let sv := saveToLocalImage env.fetched d r.url TMP_PRE_PROCESSED_IMAGES_DIR
      if sv.1 = "" then (Except.error "Failed to save optimized image", sv.2)
      else
        let rest := optimizeLoop env ts sv.2
        (match rest.1 with
         | Except.ok rs =>
           Except.ok ({ result := r
                        type := t
                        config := imageConfigs t
                        tempFilePath := sv.1 } :: rs)
         | Except.error e => Except.error e,
         rest.2)
    else
      (Except.error ("Failed to optimize " ++ typeName t ++ " image: " ++ r.error), d)

/-- `optimizeImages` (lines 181-278): fetch a remote source to a temp
file, run the per-variant loop, and in the `finally` block truncate the
downloaded source temp file (only it, and only for remote sources) by
writing empty content to it. -/
def optimizeImages (env : OptEnv) (d : Disk) (source : String)
    (types : List ImageType) : Except String (List OptimizedWithConfig) × Disk :=
  let isRemote := strStartsWith source "http"
  let s0 :=
    if isRemote then saveToLocalImage env.fetched d source TMP_INPUT_IMAGES_DIR
    else (source, d)
  let r :=
    if s0.1 = "" then (Except.error "Failed to get image path", s0.2)
    else optimizeLoop env types s0.2
  let d3 := if isRemote ∧ s0.1 ≠ "" then diskWrite r.2 s0.1 [] else r.2
  (r.1, d3)

/-- One pipeline result entry (lines 66-70). -/
structure OptimizedImage where
  url : String
  originalUrl : String
  isRemote : Bool
deriving DecidableEq, Repr

/-- The metadata record `uploadToCDN` attaches (lines 303-318). -/
def cdnMetadata (img : OptimizedWithConfig) : List (String × String) :=
  [("propertyId", "PROP123"), ("roomType", "living-room"),
   ("imageType", typeName img.type), ("optimized", "true"),
   ("uploadedBy", "real-estate-app"),
   ("originalSize", match img.result.originalSize with
     | some n => toString n
     | none => "unknown"),
   ("optimizedSize", toString img.result.size),
   ("width", toString img.result.width),
   ("height", toString img.result.height),
   ("format", img.result.format),
   ("quality", toString img.config.quality),
   ("maxWidth", toString img.config.maxWidth)]

/-- The upload loop of `uploadToCDN` (lines 292-332): upload each temp
file's bytes under `rubenabix/{type}` and record the direct URL. The
disk is only read here; truncation happens in the `finally` block. -/
def uploadLoop (svc : ServiceConfig) (source : String) (isRemote : Bool)
    (now : String) :
    List OptimizedWithConfig → Store → Disk →
      List (ImageType × OptimizedImage) × Store
  | [], store, _ => ([], store)
  | img :: rest, store, d =>
    let content := (diskRead d img.tempFilePath).getD []
    let up := uploadImage svc store img.tempFilePath content
      ("rubenabix/" ++ typeName img.type)
      { cacheControl := some "public, max-age=31536000, immutable, must-revalidate"
        contentType := some "image/webp"
        metadata := some (cdnMetadata img) } now
    let rest2 := uploadLoop svc source isRemote now rest up.2 d
    ((img.type, { url := up.1.directUrl
                  originalUrl := source
                  isRemote := isRemote }) :: rest2.1, rest2.2)

/-- `uploadToCDN` (lines 280-345): run the upload loop, then in the
`finally` block truncate every per-variant temp file by writing empty
content to it. -/
def uploadToCDN (svc : ServiceConfig) (store : Store)
    (imgs : List OptimizedWithConfig) (source : String) (now : String)
    (d : Disk) : List (ImageType × OptimizedImage) × Store × Disk :=
  let isRemote := strStartsWith source "http"
  let r := uploadLoop svc source isRemote now imgs store d
  (r.1, r.2,
    imgs.foldl (fun dd img => diskWrite dd img.tempFilePath []) d)

/-- `createOptimizedImages` (lines 347-360): optimize, then upload; an
error thrown by `optimizeImages` propagates and the upload step never
runs. -/
def createOptimizedImages (svc : ServiceConfig) (env : OptEnv) (store : Store)
    (d : Disk) (source : String) (types : List ImageType) (now : String) :
    Except String (List (ImageType × OptimizedImage)) × Store × Disk :=
  let o := optimizeImages env d source types
  match o.1 with
  | Except.ok imgs =>
    let u := uploadToCDN svc store imgs source now o.2
    (Except.ok u.1, u.2.1, u.2.2)
  | Except.error e => (Except.error e, store, o.2)

/-! ## The transcoder (`src/features/images/image_optimizer.ts`)

Two aspects carry the claims: the AVIF intermediate-conversion fallback
chain (lines 77-124) and the resize policy (lines 126-134). The sharp
codec is an external capability; its per-call outcomes are the
`SharpEnv` oracle, and its resize arithmetic is modelled from the spec
(fit-within-bounding-box, `withoutEnlargement`). -/

/-- Where the sharp instance that reaches the final conversion came
from. -/
inductive SharpSrc
  | original
  | tempFile
  | memoryJpeg
deriving DecidableEq, Repr

/-- The sharp oracle: whether the temp-file intermediate JPEG write
succeeds, whether the in-memory intermediate conversion succeeds, and
whether the final `toBuffer` of an instance of each provenance
succeeds. -/
structure SharpEnv where
  tempFileJpegOk : Bool
  inMemoryJpegOk : Bool
  finalOk : SharpSrc → Bool

/-- The AVIF intermediate-conversion chain (lines 78-124): try the
temp-file JPEG route; on failure fall back to the in-memory route; if
that also fails, the outer `catch` swallows the error and the original
buffer is kept as last resort. -/
def avifIntermediate (env : SharpEnv) : SharpSrc :=
  if env.tempFileJpegOk then SharpSrc.tempFile
  else if env.inMemoryJpegOk then SharpSrc.memoryJpeg
  else SharpSrc.original

/-- The fallible skeleton of `optimizeImage` (lines 77-210): pick the
instance provenance (AVIF sources go through the intermediate chain),
then run the final conversion, which throws on failure. On success the
provenance that was used is returned. -/
def optimizeImageRun (env : SharpEnv) (sourceFormat : String) :
    Except String SharpSrc :=
  let src :=
    if sourceFormat = "avif" then avifIntermediate env else SharpSrc.original
  if env.finalOk src then Except.ok src
  else Except.error "Image processing failed"

/-- Modelled from the spec: sharp's scale factor for
`fit: "inside", withoutEnlargement: true` — the largest scale that fits
both given bounds, capped at 1 (sharp itself is the external codec
capability of §1 of the spec; §4.1 fixes these semantics). -/
def fitInsideScale (w h : Nat) (maxW maxH : Option Nat) : ℚ :=
  let sw := match maxW with
    | none => 1
    | some wBound => min 1 ((wBound : ℚ) / (w : ℚ))
  let sh := match maxH with
    | none => 1
    | some hBound => min 1 ((hBound : ℚ) / (h : ℚ))
  min sw sh

/-- Modelled from the spec: the output dimensions of sharp's
fit-inside, no-enlargement resize — both dimensions scaled by the one
common factor and rounded to the nearest pixel. -/
def sharpResizeFitInside (w h : Nat) (maxW maxH : Option Nat) : Nat × Nat :=
  let s := fitInsideScale w h maxW maxH
  ((round ((w : ℚ) * s)).toNat, (round ((h : ℚ) * s)).toNat)

/-- `width || undefined`: JavaScript treats 0 as absent. -/
def jsOrUndefined : Option Nat → Option Nat
  | some 0 => none
  | x => x

/-- The dimension behaviour of `optimizeImage` (lines 126-134): resize
only when a width or height is requested (`if (width || height)`),
passing `fit: "inside"` and `withoutEnlargement: true`; otherwise the
source dimensions pass through. -/
def optimizeImageDims (w h : Nat) (width height : Option Nat) : Nat × Nat :=
  match jsOrUndefined width, jsOrUndefined height with
  | none, none => (w, h)
  | w', h' => sharpResizeFitInside w h w' h'

/-! ## Quality parsing of the upload route (`src/routes/optimize.ts`)

Lines 42-46: `qualityStr ? Math.min(Math.max(Number.parseInt(qualityStr)
|| 80, 1), 100) : 80`. `Number.parseInt` is modelled with JavaScript's
semantics: skip whitespace, optional sign, `0x`/`0X` hex prefix, longest
digit prefix, `NaN` (here `none`) when no digit follows. -/

/-- JavaScript string whitespace (the cases relevant to form fields). -/
def isJsWhitespace (c : Char) : Bool :=
  c == ' ' || c == '\t' || c == '\n' || c == '\r'

/-- A decimal digit's value. -/
def digitVal10 (c : Char) : Option Nat :=
  if '0' ≤ c ∧ c ≤ '9' then some (c.toNat - 48) else none

/-- A hexadecimal digit's value. -/
def digitVal16 (c : Char) : Option Nat :=
  if '0' ≤ c ∧ c ≤ '9' then some (c.toNat - 48)
  else if 'a' ≤ c ∧ c ≤ 'f' then some (c.toNat - 87)
  else if 'A' ≤ c ∧ c ≤ 'F' then some (c.toNat - 55)
  else none

/-- The longest digit prefix under a digit reader. -/
def takeDigits (f : Char → Option Nat) : List Char → List Nat
  | [] => []
  | c :: cs =>
    match f c with
    | some v => v :: takeDigits f cs
    | none => []

/-- `Number.parseInt` with no radix argument: `none` is `NaN`. -/
def parseIntJS (s : String) : Option Int :=
  let l := s.data.dropWhile fun c => isJsWhitespace c
  let signed : Int × List Char :=
    match l with
    | '-' :: r => (-1, r)
    | '+' :: r => (1, r)
    | _ => (1, l)
  let based : Nat × List Char × (Char → Option Nat) :=
    match signed.2 with
    | '0' :: 'x' :: r => (16, r, digitVal16)
    | '0' :: 'X' :: r => (16, r, digitVal16)
    | _ => (10, signed.2, digitVal10)
  let ds := takeDigits based.2.2 based.2.1
  if ds = [] then none
  else some (signed.1 * (ds.foldl (fun a v => a * based.1 + v) 0 : Nat))

/-- The quality computed by `handleUploadOptimize` (lines 42-46):
`none` is an absent field, and the empty string is falsy like `null`.
`Number.parseInt(q) || 80` sends both `NaN` and 0 to the default 80
before the clamp to `[1, 100]`. -/
def parseQuality (q : Option String) : Int :=
  match q with
  | none => 80
  | some s =>
    if s = "" then 80
    else
      let n : Int :=
        match parseIntJS s with
        | none => 80
        | some v => if v = 0 then 80 else v
      min (max n 1) 100

/-! ## Concrete instances used by counterexamples and witnesses -/

/-- A concrete service configuration. -/
def svcDemo : ServiceConfig :=
  { bucketName := "tinypic"
    cdnUrl := "https://cdn.example" }

/-- A successful transcode outcome. -/
def pwOkThumb : PwResult :=
  { success := true
    error := ""
    url := "http://opt.example/t.webp"
    size := 10
    width := 5
    height := 5
    format := "webp"
    originalSize := some 20 }

/-- A failing transcode outcome. -/
def pwFailFull : PwResult :=
  { success := false
    error := "decode error"
    url := ""
    size := 0
    width := 0
    height := 0
    format := ""
    originalSize := none }

/-- Oracles: every download yields the bytes `[7, 7]`; the `full`
variant fails to optimize, the others succeed. -/
def envPartial : OptEnv :=
  { fetched := fun _ => [7, 7]
    pw := fun t =>
      match t with
      | ImageType.full => pwFailFull
      | _ => pwOkThumb }

/-- Oracles: every download yields `[7, 7]`; every variant succeeds. -/
def envAllOk : OptEnv :=
  { fetched := fun _ => [7, 7]
    pw := fun _ => pwOkThumb }

/-- Sharp oracle: both intermediate conversions succeed, every final
conversion fails. -/
def sharpFinalFails : SharpEnv :=
  { tempFileJpegOk := true
    inMemoryJpegOk := true
    finalOk := fun _ => false }

/-- Sharp oracle: both intermediate conversions fail, the last-resort
direct processing of the original buffer succeeds. -/
def sharpLastResort : SharpEnv :=
  { tempFileJpegOk := false
    inMemoryJpegOk := false
    finalOk := fun s =>
      match s with
      | SharpSrc.original => true
      | _ => false }

/-- The thumbnail intermediate record produced by a run of `envAllOk`:
every download yields `[7, 7]`, whose SHA-256 digest names the temp
file. -/
def imgThumbLit : OptimizedWithConfig :=
  { result := pwOkThumb
    type := ImageType.thumbnail
    config := imageConfigs ImageType.thumbnail
    tempFilePath :=
      "./tmp/pre-processed-images/c7b99f1c681eaad2096f54c0380b8f950fa5cbe47cb3695ed590167c0dfff315.webp" }

/-- The magic bytes of a WEBP file (RIFF....WEBP). -/
def webpBytes : List Nat :=
  [0x52, 0x49, 0x46, 0x46, 0, 0, 0, 0, 0x57, 0x45, 0x42, 0x50]

/-- The magic bytes of a GIF89a file. -/
def gifBytes : List Nat := [0x47, 0x49, 0x46, 0x38, 0x39, 0x61]

/-! ## Helper lemmas: splitting at the last occurrence -/

theorem splitLastChar_of_not_mem {c : Char} {l : List Char} (h : c ∉ l) :
    splitLastChar c l = none := by
  induction l with
  | nil => rfl
  | cons x xs ih =>
    simp only [List.mem_cons, not_or] at h
    have hxc : ¬x = c := fun hx => h.1 hx.symm
    simp [splitLastChar, ih h.2, hxc]

theorem not_mem_of_splitLastChar_none {c : Char} :
    ∀ {l : List Char}, splitLastChar c l = none → c ∉ l := by
  intro l
  induction l with
  | nil => simp
  | cons x xs ih =>
    intro h
    simp only [splitLastChar] at h
    rcases hx : splitLastChar c xs with _ | pp
    · rw [hx] at h
      by_cases hxc : x = c
      · simp [hxc] at h
      · simp only [List.mem_cons, not_or]
        exact ⟨fun hc => hxc hc.symm, ih hx⟩
    · rw [hx] at h
      rcases pp with ⟨pre, post⟩
      simp at h

theorem splitLastChar_append {c : Char} (pre post : List Char) (h : c ∉ post) :
    splitLastChar c (pre ++ c :: post) = some (pre, post) := by
  induction pre with
  | nil => simp [splitLastChar, splitLastChar_of_not_mem h]
  | cons x xs ih => simp [splitLastChar, ih]

theorem splitLastChar_decomp {c : Char} :
    ∀ {l pre post : List Char}, splitLastChar c l = some (pre, post) →
      l = pre ++ c :: post := by
  intro l
  induction l with
  | nil => intro pre post h; simp [splitLastChar] at h
  | cons x xs ih =>
    intro pre post h
    simp only [splitLastChar] at h
    rcases hx : splitLastChar c xs with _ | ⟨pre2, post2⟩
    · rw [hx] at h
      by_cases hxc : x = c
      · simp only [hxc, if_pos rfl] at h
        obtain ⟨hp, hq⟩ := Prod.mk.injEq .. ▸ (Option.some.injEq .. ▸ h)
        subst hxc; rw [← hp, ← hq]; rfl
      · simp [hxc] at h
    · rw [hx] at h
      obtain ⟨hp, hq⟩ := Prod.mk.injEq .. ▸ (Option.some.injEq .. ▸ h)
      rw [← hp, ← hq]
      simpa using congrArg (x :: ·) (ih hx)

theorem not_mem_post_of_splitLastChar {c : Char} :
    ∀ {l pre post : List Char}, splitLastChar c l = some (pre, post) →
      c ∉ post := by
  intro l
  induction l with
  | nil => intro pre post h; simp [splitLastChar] at h
  | cons x xs ih =>
    intro pre post h
    simp only [splitLastChar] at h
    rcases hx : splitLastChar c xs with _ | ⟨pre2, post2⟩
    · rw [hx] at h
      by_cases hxc : x = c
      · simp only [hxc, if_pos rfl] at h
        obtain ⟨_, hq⟩ := Prod.mk.injEq .. ▸ (Option.some.injEq .. ▸ h)
        rw [← hq]
        exact not_mem_of_splitLastChar_none hx
      · simp [hxc] at h
    · rw [hx] at h
      obtain ⟨_, hq⟩ := Prod.mk.injEq .. ▸ (Option.some.injEq .. ▸ h)
      exact hq ▸ ih hx

/-! ## Helper lemmas: the path functions on well-formed keys -/

theorem basenameL_no_slash (l : List Char) : '/' ∉ basenameL l := by
  unfold basenameL
  rcases h : splitLastChar '/' l with _ | ⟨pre, post⟩
  · exact not_mem_of_splitLastChar_none h
  · exact not_mem_post_of_splitLastChar h

theorem basenameL_append {dir name : List Char} (h : '/' ∉ name) :
    basenameL (dir ++ '/' :: name) = name := by
  unfold basenameL
  rw [splitLastChar_append dir name h]

theorem dirnameL_append {dir name : List Char} (h : '/' ∉ name)
    (hd : dir ≠ []) : dirnameL (dir ++ '/' :: name) = dir := by
  unfold dirnameL
  rw [splitLastChar_append dir name h]
  simp [hd]

/-- The shape of every `extnameL` output: empty, or a dot followed by
characters containing neither a dot nor a slash. -/
theorem extnameL_shape (l : List Char) :
    extnameL l = [] ∨
      ∃ post, extnameL l = '.' :: post ∧ '.' ∉ post ∧ '/' ∉ post := by
  unfold extnameL
  rcases h : splitLastChar '.' (basenameL l) with _ | ⟨pre, post⟩
  · exact Or.inl rfl
  · by_cases hp : pre = []
    · simp [hp]
    · refine Or.inr ⟨post, by simp [hp], not_mem_post_of_splitLastChar h, ?_⟩
      intro hs
      exact basenameL_no_slash l
        (splitLastChar_decomp h ▸ (List.mem_append.mpr
          (Or.inr (List.mem_cons_of_mem _ hs))))

/-- A well-formed extension: empty, or a dot followed by characters with
no further dot and no slash. -/
def WfExt (ext : List Char) : Prop :=
  ext = [] ∨ ∃ rest, ext = '.' :: rest ∧ '.' ∉ rest ∧ '/' ∉ rest

theorem wfExt_no_slash {ext : List Char} (h : WfExt ext) : '/' ∉ ext := by
  rcases h with h | ⟨rest, hrest, _, hsl⟩
  · simp [h]
  · subst hrest
    simp only [List.mem_cons, not_or]
    exact ⟨by decide, hsl⟩

theorem extnameL_append {dir stem ext : List Char} (hst_dot : '.' ∉ stem)
    (hst_ne : stem ≠ []) (hst_sl : '/' ∉ stem) (hext : WfExt ext) :
    extnameL (dir ++ '/' :: (stem ++ ext)) = ext := by
  have hname : '/' ∉ stem ++ ext := by
    simp only [List.mem_append, not_or]
    exact ⟨hst_sl, wfExt_no_slash hext⟩
  unfold extnameL
  rw [basenameL_append hname]
  rcases hext with h | ⟨rest, hrest, hdot, _⟩
  · subst h
    rw [List.append_nil, splitLastChar_of_not_mem hst_dot]
  · subst hrest
    rw [splitLastChar_append stem rest hdot]
    simp [hst_ne]

theorem basenameExtL_append {dir stem ext : List Char} (hst_ne : stem ≠ [])
    (hst_sl : '/' ∉ stem) (hext : WfExt ext) :
    basenameExtL (dir ++ '/' :: (stem ++ ext)) ext = stem := by
  have hname : '/' ∉ stem ++ ext := by
    simp only [List.mem_append, not_or]
    exact ⟨hst_sl, wfExt_no_slash hext⟩
  unfold basenameExtL
  rw [basenameL_append hname]
  rcases hext with h | ⟨rest, hrest, _, _⟩
  · subst h
    simp
  · subst hrest
    have hsuf : ('.' :: rest).isSuffixOf (stem ++ '.' :: rest) :=
      List.isSuffixOf_iff_suffix.mpr ⟨stem, rfl⟩
    have hlen : ('.' :: rest).length < (stem ++ '.' :: rest).length := by
      rcases stem with _ | ⟨s, ss⟩
      · exact absurd rfl hst_ne
      · simp only [List.length_append, List.length_cons]
        omega
    rw [if_pos ⟨by simp, hlen, hsuf⟩]
    have : (stem ++ '.' :: rest).length - ('.' :: rest).length = stem.length := by
      simp only [List.length_append]
      omega
    rw [this, List.take_left]

/-! ## Helper lemmas: store and disk -/

theorem storeHas_cons_self (store : Store) (k : String) (f : StoredFile) :
    storeHas ((k, f) :: store) k = true := by
  simp [storeHas]

theorem diskRead_write_self (d : Disk) (p : String) (c : List Nat) :
    diskRead (diskWrite d p c) p = some c := by
  simp [diskRead, diskWrite, List.find?]

theorem diskRead_foldl_truncate (ps : List String) (d : Disk) (p : String) :
    diskRead (ps.foldl (fun dd q => diskWrite dd q []) d) p =
      if p ∈ ps then some [] else diskRead d p := by
  induction ps generalizing d with
  | nil => simp
  | cons q qs ih =>
    simp only [List.foldl_cons, ih, List.mem_cons]
    by_cases hq : p ∈ qs
    · simp [hq]
    · by_cases hpq : p = q
      · subst hpq
        simp [hq, diskRead_write_self]
      · have : diskRead (diskWrite d q []) p = diskRead d p := by
          simp only [diskRead, diskWrite, List.find?]
          have : (q == p) = false := by
            simp [beq_iff_eq]
            exact fun hh => hpq hh.symm
          simp [this]
        simp [hq, hpq, this]

theorem append_ne_empty_left {s : String} (t : String) (h : s.data ≠ []) :
    s ++ t ≠ "" := by
  intro he
  apply h
  have hd := congrArg String.data he
  rw [String.data_append] at hd
  exact (List.append_eq_nil.mp hd).1

theorem saveToLocalImage_fst_ne_empty (f : String → List Nat) (d : Disk)
    (url tempDir : String) (h : tempDir.data ≠ []) :
    (saveToLocalImage f d url tempDir).1 ≠ "" := by
  unfold saveToLocalImage
  apply append_ne_empty_left
  rw [String.data_append]
  intro hd
  exact h (List.append_eq_nil.mp hd).1

/-! ## Helper lemmas: the deduplicating upload -/

/-- A second upload of the same file content to the same destination,
from the state the first upload left, is a no-op that returns the first
upload's URLs — for any options and clock values of the two calls. -/
theorem uploadImage_second (svc : ServiceConfig) (store : Store)
    (p : String) (c : List Nat) (folder : String)
    (o1 o2 : CoreUploadOptions) (n1 n2 : String) :
    uploadImage svc (uploadImage svc store p c folder o1 n1).2 p c folder o2 n2 =
      ((uploadImage svc store p c folder o1 n1).1,
        (uploadImage svc store p c folder o1 n1).2) := by
  unfold uploadImage
  cases h : storeHas store (destinationFor p folder c) with
  | true => simp [h]
  | false => simp [h, storeHas_cons_self]

/-! ## Validation of the SHA-256 embedding against the FIPS 180-4 test
vectors -/

theorem sha256hex_vector_empty :
    sha256hex [] =
      "e3b0c44298fc1c149afbf4c8996fb92427ae41e4649b934ca495991b7852b855" := by
  decide

theorem sha256hex_vector_abc :
    sha256hex [97, 98, 99] =
      "ba7816bf8f01cfea414140de5dae2223b00361a396177a9cb410ff61f20015ad" := by
  decide

/-! ## C9: hash determinism -/

/-- C9: `generateHash` is a pure function of the byte content alone —
the embedding gives it no access to process state, time or randomness —
so two calls on byte-identical inputs, whether in one process or across
process restarts, return the same digest. -/
theorem generateHash_deterministic (c1 c2 : List Nat) (h : c1 = c2) :
    generateHash c1 = generateHash c2 := by rw [h]

/-- Witness for C9 at the bytes of "abc". -/
theorem generateHash_deterministic_witness :
    generateHash [97, 98, 99] = generateHash [97, 98, 99] :=
  generateHash_deterministic [97, 98, 99] [97, 98, 99] rfl

/-! ## C1: dedup idempotence of `uploadImage` -/

/-- C1: calling `uploadImage` twice with the same file content (same
path, folder and options; the two calls may see different clock values)
results in at most one stored object: the first call leaves the
destination key present, the second call performs no store write and
returns a URL set identical to the first call's. -/
theorem uploadImage_idempotent (svc : ServiceConfig) (store : Store)
    (filePath : String) (content : List Nat) (folder : String)
    (opts : CoreUploadOptions) (now1 now2 : String) :
    storeHas (uploadImage svc store filePath content folder opts now1).2
        (destinationFor filePath folder content) = true ∧
    uploadImage svc (uploadImage svc store filePath content folder opts now1).2
        filePath content folder opts now2 =
      ((uploadImage svc store filePath content folder opts now1).1,
        (uploadImage svc store filePath content folder opts now1).2) ∧
    (uploadImage svc store filePath content folder opts now1).2.length ≤
      store.length + 1 := by
  refine ⟨?_, uploadImage_second .., ?_⟩
  · unfold uploadImage
    cases h : storeHas store (destinationFor filePath folder content) with
    | true => simp [h]
    | false => simp [h, storeHas_cons_self]
  · unfold uploadImage
    cases h : storeHas store (destinationFor filePath folder content) with
    | true => simp [h]
    | false => simp [h]

/-! ## C2: metadata and the content hash -/

/-- C2 counterexample: upload the bytes `[0, 1]` with metadata
`k := "a"`, then again with metadata `k := "b"`. The second call is
deduplicated against the first — the store is unchanged and the URLs
are identical — and only one object was ever stored, because
`generateHash` reads the bytes only; the claimed folding of sorted
metadata keys into the digest does not happen. -/
theorem metadata_hash_cex :
    (uploadImage svcDemo
        (uploadImage svcDemo [] "img.webp" [0, 1] "f"
          { metadata := some [("k", "a")] } "t1").2
        "img.webp" [0, 1] "f" { metadata := some [("k", "b")] } "t2").2 =
      (uploadImage svcDemo [] "img.webp" [0, 1] "f"
        { metadata := some [("k", "a")] } "t1").2 ∧
    (uploadImage svcDemo
        (uploadImage svcDemo [] "img.webp" [0, 1] "f"
          { metadata := some [("k", "a")] } "t1").2
        "img.webp" [0, 1] "f" { metadata := some [("k", "b")] } "t2").1 =
      (uploadImage svcDemo [] "img.webp" [0, 1] "f"
        { metadata := some [("k", "a")] } "t1").1 ∧
    (uploadImage svcDemo [] "img.webp" [0, 1] "f"
      { metadata := some [("k", "a")] } "t1").2.length = 1 := by
  refine ⟨?_, ?_, ?_⟩
  · exact congrArg Prod.snd
      (uploadImage_second svcDemo [] "img.webp" [0, 1] "f" _ _ "t1" "t2")
  · exact congrArg Prod.fst
      (uploadImage_second svcDemo [] "img.webp" [0, 1] "f" _ _ "t1" "t2")
  · simp [uploadImage, storeHas]

/-- C2 (amended): the content hash is computed over the byte content
only — `generateHash` does not take the metadata at all — so two uploads
of byte-identical content with any two metadata records compute the same
destination key and ARE deduplicated together: the second call performs
no store write and returns the first call's URLs. -/
theorem metadata_excluded_from_hash (svc : ServiceConfig) (store : Store)
    (p : String) (c : List Nat) (folder : String)
    (m1 m2 : List (String × String)) (n1 n2 : String) :
    uploadImage svc
        (uploadImage svc store p c folder { metadata := some m1 } n1).2
        p c folder { metadata := some m2 } n2 =
      ((uploadImage svc store p c folder { metadata := some m1 } n1).1,
        (uploadImage svc store p c folder { metadata := some m1 } n1).2) :=
  uploadImage_second svc store p c folder _ _ n1 n2

/-! ## C6: the AVIF intermediate-conversion fallback -/

/-- C6 counterexample: with an AVIF source, (i) when every final
conversion fails the whole operation fails even though the temp-file
intermediate path succeeded, and (ii) when both intermediate paths fail
the operation still succeeds, through the swallowed error and the
last-resort direct processing of the original buffer — so "the whole
operation fails only if both paths fail" is wrong in both directions. -/
theorem avif_both_paths_cex :
    (optimizeImageRun sharpFinalFails "avif" =
        Except.error "Image processing failed" ∧
      sharpFinalFails.tempFileJpegOk = true) ∧
    (sharpLastResort.tempFileJpegOk = false ∧
      sharpLastResort.inMemoryJpegOk = false ∧
      optimizeImageRun sharpLastResort "avif" = Except.ok SharpSrc.original) :=
  ⟨⟨rfl, rfl⟩, rfl, rfl, rfl⟩

/-- C6 (amended): when the temp-file intermediate path fails the
transcoder does fall back to the in-memory path; when both fail the
error is swallowed and the original buffer is kept as a last resort;
and the whole operation succeeds exactly when the final conversion of
the instance chosen this way succeeds. -/
theorem avif_fallback_chain (env : SharpEnv) :
    (env.tempFileJpegOk = true → avifIntermediate env = SharpSrc.tempFile) ∧
    (env.tempFileJpegOk = false → env.inMemoryJpegOk = true →
      avifIntermediate env = SharpSrc.memoryJpeg) ∧
    (env.tempFileJpegOk = false → env.inMemoryJpegOk = false →
      avifIntermediate env = SharpSrc.original) ∧
    (optimizeImageRun env "avif" = Except.ok (avifIntermediate env) ↔
      env.finalOk (avifIntermediate env) = true) := by
  refine ⟨fun h1 => ?_, fun h1 h2 => ?_, fun h1 h2 => ?_, ?_⟩
  · simp [avifIntermediate, h1]
  · simp [avifIntermediate, h1, h2]
  · simp [avifIntermediate, h1, h2]
  · unfold optimizeImageRun
    cases h : env.finalOk (avifIntermediate env) <;> simp [h]

/-- Witness for the amended C6 at a concrete sharp oracle. -/
theorem avif_fallback_chain_witness :
    avifIntermediate sharpLastResort = SharpSrc.original ∧
    optimizeImageRun sharpLastResort "avif" =
      Except.ok (avifIntermediate sharpLastResort) :=
  ⟨(avif_fallback_chain sharpLastResort).2.2.1 rfl rfl,
    ((avif_fallback_chain sharpLastResort).2.2.2).mpr rfl⟩

/-! ## C10: quality parsing of the upload route -/

/-- C10 counterexample: a submitted quality of "0" is numeric and below
1, but `Number.parseInt(q) || 80` treats the parsed 0 as falsy, so the
handler forwards the default 80 instead of clamping to 1. -/
theorem parseQuality_zero_cex :
    parseQuality (some "0") = 80 ∧ parseQuality (some "0") ≠ 1 := by decide

/-- C10 (amended): the forwarded quality always lies in [1, 100]; a
missing field, an unparsable value, and a value parsing to 0 all become
the default 80; a parsed value below 1 other than 0 is clamped to 1 and
a parsed value above 100 is clamped to 100. (The parse itself is total:
no quality value is rejected.) -/
theorem parseQuality_clamped :
    (∀ q, 1 ≤ parseQuality q ∧ parseQuality q ≤ 100) ∧
    parseQuality none = 80 ∧
    parseQuality (some "") = 80 ∧
    (∀ s, parseIntJS s = none → parseQuality (some s) = 80) ∧
    (∀ s, parseIntJS s = some 0 → parseQuality (some s) = 80) ∧
    (∀ s v, parseIntJS s = some v → v < 1 → v ≠ 0 →
      parseQuality (some s) = 1) ∧
    (∀ s v, parseIntJS s = some v → 100 < v → parseQuality (some s) = 100) := by
  refine ⟨?_, rfl, rfl, ?_, ?_, ?_, ?_⟩
  · intro q
    rcases q with _ | s
    · exact ⟨by norm_num [parseQuality], by norm_num [parseQuality]⟩
    · by_cases hs : s = ""
      · subst hs
        exact ⟨by norm_num [parseQuality], by norm_num [parseQuality]⟩
      · rcases h : parseIntJS s with _ | v
        · simp [parseQuality, hs, h]
        · by_cases hv : v = 0
          · simp [parseQuality, hs, h, hv]
          · simp only [parseQuality, hs, if_neg hs, h, if_neg hv]
            constructor <;> · simp [min_def, max_def]; split_ifs <;> omega
  · intro s h
    by_cases hs : s = "" <;> simp [parseQuality, hs, h]
  · intro s h
    by_cases hs : s = ""
    · rw [hs, (by decide : parseIntJS "" = none)] at h
      exact absurd h (by simp)
    · simp [parseQuality, hs, h]
  · intro s v h hv1 hv0
    by_cases hs : s = ""
    · rw [hs, (by decide : parseIntJS "" = none)] at h
      exact absurd h (by simp)
    · simp only [parseQuality, if_neg hs, h, if_neg hv0]
      simp [min_def, max_def]
      split_ifs <;> omega
  · intro s v h hv
    by_cases hs : s = ""
    · rw [hs, (by decide : parseIntJS "" = none)] at h
      exact absurd h (by simp)
    · have hv0 : ¬v = 0 := by omega
      simp only [parseQuality, if_neg hs, h, if_neg hv0]
      simp [min_def, max_def]
      split_ifs <;> omega

/-- Witness for the amended C10: a negative quality clamps to 1, an
oversized one to 100, an unparsable one falls back to 80. -/
theorem parseQuality_clamped_witness :
    parseQuality (some "-7") = 1 ∧ parseQuality (some "500") = 100 ∧
      parseQuality (some "oops") = 80 :=
  ⟨parseQuality_clamped.2.2.2.2.2.1 "-7" (-7) (by decide) (by decide) (by decide),
   parseQuality_clamped.2.2.2.2.2.2 "500" 500 (by decide) (by decide),
   parseQuality_clamped.2.2.2.1 "oops" (by decide)⟩

/-! ## C3: a variant failure aborts the whole pipeline -/

/-- If every variant before `t` succeeds and `t` fails to optimize, the
per-variant loop throws the error for `t`, for any starting disk. -/
theorem optimizeLoop_error (env : OptEnv) (t : ImageType)
    (ht : (env.pw t).success = false) :
    ∀ (pre post : List ImageType) (d : Disk),
      (∀ u ∈ pre, (env.pw u).success = true) →
      (optimizeLoop env (pre ++ t :: post) d).1 =
        Except.error
          ("Failed to optimize " ++ typeName t ++ " image: " ++ (env.pw t).error) := by
  intro pre
  induction pre with
  | nil =>
    intro post d _
    simp [optimizeLoop, ht]
  | cons u us ih =>
    intro post d hpre
    have hu : (env.pw u).success = true := hpre u (List.mem_cons_self u us)
    have hne : (saveToLocalImage env.fetched d (env.pw u).url
        TMP_PRE_PROCESSED_IMAGES_DIR).1 ≠ "" :=
      saveToLocalImage_fst_ne_empty _ _ _ _ (by decide)
    have hrec := ih post
      (saveToLocalImage env.fetched d (env.pw u).url TMP_PRE_PROCESSED_IMAGES_DIR).2
      (fun x hx => hpre x (List.mem_cons_of_mem u hx))
    simp only [List.cons_append, optimizeLoop, hu, if_true, if_neg hne,
      List.append_eq, hrec]

/-- For a nonempty source path, the first component of `optimizeImages`
is the first component of the per-variant loop run on some disk. -/
theorem optimizeImages_fst_exists (env : OptEnv) (d : Disk) (source : String)
    (types : List ImageType) (hsrc : source ≠ "") :
    ∃ d0, (optimizeImages env d source types).1 = (optimizeLoop env types d0).1 := by
  unfold optimizeImages
  cases hrem : strStartsWith source "http" with
  | true =>
    refine ⟨(saveToLocalImage env.fetched d source TMP_INPUT_IMAGES_DIR).2, ?_⟩
    have hne : (saveToLocalImage env.fetched d source TMP_INPUT_IMAGES_DIR).1 ≠ "" :=
      saveToLocalImage_fst_ne_empty _ _ _ _ (by decide)
    simp [hrem, hne]
  | false =>
    exact ⟨d, by simp [hrem, hsrc]⟩

/-- C3 counterexample: a run with the `thumbnail` variant succeeding and
the `full` variant failing returns a thrown error — not a partial
result: the successful `thumbnail` `VariantResult` is discarded and no
itemized error list exists anywhere in the return type. -/
theorem pipeline_throws_cex :
    (createOptimizedImages svcDemo envPartial [] [] "local.png"
        [ImageType.thumbnail, ImageType.full] "t0").1 =
      Except.error "Failed to optimize full image: decode error" := by rfl

/-- C3 (amended): when some variant fails to optimize, `optimizeImages`
(and with it `createOptimizedImages`) throws an error naming that
variant; the successes of earlier variants are discarded and no
per-variant error list is returned. -/
theorem variant_failure_aborts (env : OptEnv) (d : Disk) (source : String)
    (pre post : List ImageType) (t : ImageType) (hsrc : source ≠ "")
    (hpre : ∀ u ∈ pre, (env.pw u).success = true)
    (ht : (env.pw t).success = false) :
    (optimizeImages env d source (pre ++ t :: post)).1 =
      Except.error
        ("Failed to optimize " ++ typeName t ++ " image: " ++ (env.pw t).error) ∧
    ∀ (svc : ServiceConfig) (store : Store) (now : String),
      (createOptimizedImages svc env store d source (pre ++ t :: post) now).1 =
        Except.error
          ("Failed to optimize " ++ typeName t ++ " image: " ++ (env.pw t).error) := by
  obtain ⟨d0, hd0⟩ := optimizeImages_fst_exists env d source (pre ++ t :: post) hsrc
  have herr := optimizeLoop_error env t ht pre post d0 hpre
  have hcomb := hd0.trans herr
  refine ⟨hcomb, fun svc store now => ?_⟩
  simp only [createOptimizedImages, hcomb]

/-- Witness for the amended C3 at a concrete run. -/
theorem variant_failure_aborts_witness :
    (optimizeImages envPartial [] "local.png"
        [ImageType.thumbnail, ImageType.full]).1 =
      Except.error "Failed to optimize full image: decode error" := by
  have h := (variant_failure_aborts envPartial [] "local.png"
    [ImageType.thumbnail] [] ImageType.full (by decide) (by decide) (by decide)).1
  exact h

/-! ## Helper lemmas: the characters of a hex digest -/

theorem hexChar_lt_16 : ∀ n < 16, hexChar n ≠ '.' ∧ hexChar n ≠ '/' := by decide

theorem word32HexChars_chars (x : Nat) :
    ∀ c ∈ word32HexChars x, c ≠ '.' ∧ c ≠ '/' := by
  intro c hc
  simp only [word32HexChars, List.mem_map, List.mem_range] at hc
  obtain ⟨i, _, hi⟩ := hc
  exact hi ▸ hexChar_lt_16 _ (Nat.lt_succ_of_le Nat.and_le_right)

theorem sha256hex_chars (m : List Nat) :
    ∀ c ∈ (sha256hex m).data, c ≠ '.' ∧ c ≠ '/' := by
  intro c hc
  replace hc : c ∈ ((sha256words m).map word32HexChars).flatten := hc
  rw [List.mem_flatten] at hc
  obtain ⟨ws, hws, hcw⟩ := hc
  rw [List.mem_map] at hws
  obtain ⟨x, _, rfl⟩ := hws
  exact word32HexChars_chars x c hcw

theorem compressBlock_length (hs block : List Nat) :
    (compressBlock hs block).length = 8 := rfl

theorem sha256words_length (m : List Nat) : (sha256words m).length = 8 := by
  suffices h : ∀ (bs : List (List Nat)) (hs : List Nat), hs.length = 8 →
      (bs.foldl compressBlock hs).length = 8 from h _ _ rfl
  intro bs
  induction bs with
  | nil => intro hs h; exact h
  | cons b bs ih => intro hs _; exact ih _ (compressBlock_length hs b)

theorem sha256hex_data_ne_nil (m : List Nat) : (sha256hex m).data ≠ [] := by
  have h8 := sha256words_length m
  rcases hw : sha256words m with _ | ⟨x, ws⟩
  · rw [hw] at h8
    simp at h8
  · intro hnil
    replace hnil : (((x :: ws).map word32HexChars).flatten : List Char) = [] := by
      have : (sha256hex m).data = ((sha256words m).map word32HexChars).flatten := rfl
      rw [this, hw] at hnil
      exact hnil
    simp only [List.map_cons, List.flatten_cons, List.append_eq_nil] at hnil
    have hlen : (word32HexChars x).length = 8 := by simp [word32HexChars]
    rw [hnil.1] at hlen
    simp at hlen

theorem generateHash_data_no_dot (c : List Nat) :
    '.' ∉ (generateHash c).data :=
  fun hm => (sha256hex_chars c _ hm).1 rfl

theorem generateHash_data_no_slash (c : List Nat) :
    '/' ∉ (generateHash c).data :=
  fun hm => (sha256hex_chars c _ hm).2 rfl

theorem wfExt_extnameL (l : List Char) : WfExt (extnameL l) := extnameL_shape l

theorem replaceBackslash_id {l : List Char} (h : '\\' ∉ l) :
    replaceBackslash (String.mk l) = String.mk l := by
  unfold replaceBackslash
  congr 1
  have hc : ∀ c ∈ l, (if c = '\\' then '/' else c) = c := by
    intro c hcm
    apply if_neg
    intro he
    rw [he] at hcm
    exact h hcm
  calc l.map (fun c => if c = '\\' then '/' else c) = l.map id :=
        List.map_congr_left hc
    _ = l := l.map_id

/-! ## C7: the saved file's type comes from the URL string -/

/-- C7 counterexample: the same URL ending in ".png" is downloaded
twice, once yielding WEBP magic bytes and once GIF magic bytes; both
times the saved temp file gets the ".png" extension taken from the URL
string — the downloaded content is never consulted for the type. -/
theorem save_type_from_url_cex :
    (saveToLocalImage (fun _ => webpBytes) [] "http://img.example/photo.png"
        "./tmp").1 =
      "./tmp/44e65465e5e82733c8e5499cdd2fb106b8b703ea3f28da3b7da7f3a661267d6e.png" ∧
    (saveToLocalImage (fun _ => gifBytes) [] "http://img.example/photo.png"
        "./tmp").1 =
      "./tmp/610f5ae4d76e332636a17bd357fd6ce99029316a99d320280d4d77a746bf29e8.png" := by
  constructor <;> rfl

/-- C7 (amended): the extension of the temp file written by
`saveToLocalImage` is a function of the URL string alone
(`path.extname(optimizedImageUrl)`, re-packed through
`generateFileName`); the downloaded bytes influence only the digest part
of the name, never the extension — no magic-byte or content-type
inspection exists. -/
theorem save_ext_only_from_url (f : String → List Nat) (d : Disk)
    (url dir : String) :
    extnameStr (saveToLocalImage f d url dir).1 =
      extnameStr ("." ++ extnameStr url) := by
  have hslash : ("/" : String).data = ['/'] := rfl
  have hpath : (saveToLocalImage f d url dir).1.data =
      dir.data ++ '/' :: ((generateHash (f url)).data ++
        (extnameStr ("." ++ extnameStr url)).data) := by
    show ((dir ++ "/") ++ (generateHash (f url) ++
      extnameStr ("." ++ extnameStr url))).data = _
    simp [String.data_append, hslash, List.append_assoc]
  show String.mk (extnameL (saveToLocalImage f d url dir).1.data) = _
  rw [hpath, extnameL_append (generateHash_data_no_dot (f url))
    (sha256hex_data_ne_nil (f url)) (generateHash_data_no_slash (f url))
    (show WfExt ((extnameStr ("." ++ extnameStr url)).data) from
      wfExt_extnameL _)]

/-! ## C8: the three URL forms of a storage key -/

/-- C8: for every storage key of the layout `{folder}/{digest}{.ext}`
(nonempty folder without backslashes, nonempty digest without dots or
slashes, well-formed extension), `getImageUrls` — a pure function of
the key and the configured CDN base and bucket name, by its type — returns
exactly the CDN URL `{cdnBase}/{key}`, the direct URL
`https://storage.googleapis.com/{bucket}/{key}` and the raw URL
`gs://{bucket}/{key}`. -/
theorem getImageUrls_pure_forms (svc : ServiceConfig)
    (folder digest ext : List Char) (hfold_ne : folder ≠ [])
    (hfold_bs : '\\' ∉ folder) (hdig_ne : digest ≠ [])
    (hdig_dot : '.' ∉ digest) (hdig_sl : '/' ∉ digest) (hext : WfExt ext) :
    getImageUrls svc (String.mk (folder ++ '/' :: (digest ++ ext))) =
      { cdnUrl := svc.cdnUrl ++ "/" ++
          String.mk (folder ++ '/' :: (digest ++ ext))
        directUrl := "https://storage.googleapis.com/" ++ svc.bucketName ++
          "/" ++ String.mk (folder ++ '/' :: (digest ++ ext))
        gsUrl := "gs://" ++ svc.bucketName ++ "/" ++
          String.mk (folder ++ '/' :: (digest ++ ext)) } := by
  have hname : '/' ∉ digest ++ ext := by
    simp only [List.mem_append, not_or]
    exact ⟨hdig_sl, wfExt_no_slash hext⟩
  have hext2 : extnameStr (String.mk (folder ++ '/' :: (digest ++ ext))) =
      String.mk ext := by
    show String.mk (extnameL (folder ++ '/' :: (digest ++ ext))) = _
    rw [extnameL_append hdig_dot hdig_ne hdig_sl hext]
  have hbase : basenameExtStr (String.mk (folder ++ '/' :: (digest ++ ext)))
      (String.mk ext) = String.mk digest := by
    show String.mk (basenameExtL (folder ++ '/' :: (digest ++ ext)) ext) = _
    rw [basenameExtL_append hdig_ne hdig_sl hext]
  have hdir : dirnameStr (String.mk (folder ++ '/' :: (digest ++ ext))) =
      String.mk folder := by
    show String.mk (dirnameL (folder ++ '/' :: (digest ++ ext))) = _
    rw [dirnameL_append hname hfold_ne]
  have hkey : String.mk folder ++ "/" ++ String.mk digest ++ String.mk ext =
      String.mk (folder ++ '/' :: (digest ++ ext)) := by
    rw [String.ext_iff]
    have hslash : ("/" : String).data = ['/'] := rfl
    simp [String.data_append, hslash, List.append_assoc]
  simp only [getImageUrls, hext2, hbase, hdir, replaceBackslash_id hfold_bs,
    hkey]

/-- Witness for C8 at a concrete key. -/
theorem getImageUrls_pure_forms_witness :
    getImageUrls svcDemo "rubenabix/thumbnail/abc.webp" =
      { cdnUrl := "https://cdn.example/rubenabix/thumbnail/abc.webp"
        directUrl :=
          "https://storage.googleapis.com/tinypic/rubenabix/thumbnail/abc.webp"
        gsUrl := "gs://tinypic/rubenabix/thumbnail/abc.webp" } := by
  have h := getImageUrls_pure_forms svcDemo "rubenabix/thumbnail".data
    "abc".data ".webp".data (by decide) (by decide) (by decide) (by decide)
    (by decide) (Or.inr ⟨"webp".data, by decide, by decide, by decide⟩)
  exact h

/-! ## C5: the resize never enlarges and respects the width bound -/

theorem roundRat_mono {x y : ℚ} (h : x ≤ y) : round x ≤ round y := by
  rw [round_eq, round_eq]
  exact Int.floor_mono (by linarith)

theorem roundRat_nonneg {x : ℚ} (h : 0 ≤ x) : 0 ≤ round x := by
  rw [round_eq]
  rw [Int.le_floor]
  push_cast
  linarith

theorem fitInsideScale_pos {w h : Nat} (maxW maxH : Option Nat)
    (hw : 0 < w) (hh : 0 < h)
    (hmw : ∀ n, maxW = some n → 0 < n) (hmh : ∀ n, maxH = some n → 0 < n) :
    0 < fitInsideScale w h maxW maxH := by
  unfold fitInsideScale
  rcases maxW with _ | wB <;> rcases maxH with _ | hB
  · norm_num
  · have h1 : (0 : ℚ) < (hB : ℚ) / (h : ℚ) :=
      div_pos (by exact_mod_cast hmh hB rfl) (by exact_mod_cast hh)
    exact lt_min one_pos (lt_min one_pos h1)
  · have h1 : (0 : ℚ) < (wB : ℚ) / (w : ℚ) :=
      div_pos (by exact_mod_cast hmw wB rfl) (by exact_mod_cast hw)
    exact lt_min (lt_min one_pos h1) one_pos
  · have h1 : (0 : ℚ) < (wB : ℚ) / (w : ℚ) :=
      div_pos (by exact_mod_cast hmw wB rfl) (by exact_mod_cast hw)
    have h2 : (0 : ℚ) < (hB : ℚ) / (h : ℚ) :=
      div_pos (by exact_mod_cast hmh hB rfl) (by exact_mod_cast hh)
    exact lt_min (lt_min one_pos h1) (lt_min one_pos h2)

theorem fitInsideScale_le_one (w h : Nat) (maxW maxH : Option Nat) :
    fitInsideScale w h maxW maxH ≤ 1 := by
  unfold fitInsideScale
  rcases maxW with _ | wB <;> rcases maxH with _ | hB <;>
    simp [min_le_left, min_le_right, min_le_iff]

/-- The scale respects the width bound: `w * s ≤ wB`. -/
theorem fitInsideScale_width {w h : Nat} (wB : Nat) (maxH : Option Nat)
    (hw : 0 < w) :
    (w : ℚ) * fitInsideScale w h (some wB) maxH ≤ (wB : ℚ) := by
  have hw0 : (0 : ℚ) < (w : ℚ) := by exact_mod_cast hw
  have hle : fitInsideScale w h (some wB) maxH ≤ (wB : ℚ) / (w : ℚ) := by
    unfold fitInsideScale
    rcases maxH with _ | hB <;>
      exact le_trans (min_le_left _ _) (min_le_right _ _)
  calc (w : ℚ) * fitInsideScale w h (some wB) maxH ≤
        (w : ℚ) * ((wB : ℚ) / (w : ℚ)) :=
        mul_le_mul_of_nonneg_left hle (le_of_lt hw0)
    _ = (wB : ℚ) := mul_div_cancel₀ _ (ne_of_gt hw0)

/-- C5: the resize of `optimizeImage` (fit-inside, without enlargement)
never upscales — when both requested maxima strictly exceed the source
dimensions the output equals the source dimensions — and for any
requested max width `wB` the output width is at most `wB`, with the
aspect ratio preserved within ±1 pixel: both output dimensions are a
common scale `s ≤ 1` of the source dimensions up to less than one pixel
of rounding. -/
theorem optimize_resize_policy :
    (∀ w h wB hB : Nat, 0 < w → 0 < h → w < wB → h < hB →
      optimizeImageDims w h (some wB) (some hB) = (w, h)) ∧
    (∀ w h wB : Nat, ∀ mh : Option Nat, 0 < w → 0 < h → 0 < wB →
      (optimizeImageDims w h (some wB) mh).1 ≤ wB ∧
      ∃ s : ℚ, 0 < s ∧ s ≤ 1 ∧
        |((optimizeImageDims w h (some wB) mh).1 : ℚ) - (w : ℚ) * s| ≤ 1 ∧
        |((optimizeImageDims w h (some wB) mh).2 : ℚ) - (h : ℚ) * s| ≤ 1) := by
  constructor
  · intro w h wB hB hw hh hwB hhB
    rcases wB with _ | wb
    · omega
    rcases hB with _ | hb
    · omega
    show sharpResizeFitInside w h (some (wb + 1)) (some (hb + 1)) = (w, h)
    have hw0 : (0 : ℚ) < (w : ℚ) := by exact_mod_cast hw
    have hh0 : (0 : ℚ) < (h : ℚ) := by exact_mod_cast hh
    have h1 : (1 : ℚ) ≤ ((wb + 1 : ℕ) : ℚ) / (w : ℚ) := by
      rw [one_le_div hw0]
      exact_mod_cast le_of_lt hwB
    have h2 : (1 : ℚ) ≤ ((hb + 1 : ℕ) : ℚ) / (h : ℚ) := by
      rw [one_le_div hh0]
      exact_mod_cast le_of_lt hhB
    have hs : fitInsideScale w h (some (wb + 1)) (some (hb + 1)) = 1 := by
      simp only [fitInsideScale]
      rw [min_eq_left h1, min_eq_left h2, min_self]
    show ((round ((w : ℚ) * fitInsideScale w h (some (wb + 1)) (some (hb + 1)))).toNat,
      (round ((h : ℚ) * fitInsideScale w h (some (wb + 1)) (some (hb + 1)))).toNat) = (w, h)
    rw [hs, mul_one, mul_one, round_natCast, round_natCast]
    simp
  · intro w h wB mh hw hh hwB
    rcases wB with _ | wb
    · omega
    set mh2 := jsOrUndefined mh with hmh2
    have hdims : optimizeImageDims w h (some (wb + 1)) mh =
        sharpResizeFitInside w h (some (wb + 1)) mh2 := by
      show (match jsOrUndefined (some (wb + 1)), jsOrUndefined mh with
        | none, none => (w, h)
        | w', h' => sharpResizeFitInside w h w' h') = _
      rcases mh with _ | n
      · rfl
      · rcases n with _ | m <;> rfl
    have hmh2pos : ∀ n, mh2 = some n → 0 < n := by
      intro n hn
      rw [hmh2] at hn
      rcases mh with _ | k
      · simp [jsOrUndefined] at hn
      · rcases k with _ | m
        · simp [jsOrUndefined] at hn
        · simp only [jsOrUndefined] at hn
          cases hn
          omega
    set s := fitInsideScale w h (some (wb + 1)) mh2 with hsdef
    have hspos : 0 < s :=
      fitInsideScale_pos (some (wb + 1)) mh2 hw hh
        (fun n hn => by cases hn; omega)
        hmh2pos
    have hsle : s ≤ 1 := fitInsideScale_le_one w h (some (wb + 1)) mh2
    have hw0 : (0 : ℚ) ≤ (w : ℚ) := by positivity
    have hh0 : (0 : ℚ) ≤ (h : ℚ) := by positivity
    have hws_nonneg : (0 : ℚ) ≤ (w : ℚ) * s := mul_nonneg hw0 (le_of_lt hspos)
    have hhs_nonneg : (0 : ℚ) ≤ (h : ℚ) * s := mul_nonneg hh0 (le_of_lt hspos)
    have hwr_nonneg : 0 ≤ round ((w : ℚ) * s) := roundRat_nonneg hws_nonneg
    have hhr_nonneg : 0 ≤ round ((h : ℚ) * s) := roundRat_nonneg hhs_nonneg
    have hcastw : (((round ((w : ℚ) * s)).toNat : ℕ) : ℚ) =
        ((round ((w : ℚ) * s) : ℤ) : ℚ) := by
      rw [← Int.cast_natCast, Int.toNat_of_nonneg hwr_nonneg]
    have hcasth : (((round ((h : ℚ) * s)).toNat : ℕ) : ℚ) =
        ((round ((h : ℚ) * s) : ℤ) : ℚ) := by
      rw [← Int.cast_natCast, Int.toNat_of_nonneg hhr_nonneg]
    have hfst : (optimizeImageDims w h (some (wb + 1)) mh).1 =
        (round ((w : ℚ) * s)).toNat := by
      rw [hdims]; rfl
    have hsnd : (optimizeImageDims w h (some (wb + 1)) mh).2 =
        (round ((h : ℚ) * s)).toNat := by
      rw [hdims]; rfl
    constructor
    · rw [hfst]
      have hb : (w : ℚ) * s ≤ ((wb + 1 : ℕ) : ℚ) := fitInsideScale_width _ mh2 hw
      have hround : round ((w : ℚ) * s) ≤ ((wb + 1 : ℕ) : ℤ) := by
        calc round ((w : ℚ) * s) ≤ round (((wb + 1 : ℕ) : ℚ)) := roundRat_mono hb
          _ = ((wb + 1 : ℕ) : ℤ) := round_natCast _
      have := Int.toNat_le_toNat hround
      simpa using this
    · refine ⟨s, hspos, hsle, ?_, ?_⟩
      · rw [hfst, hcastw]
        have habs := abs_sub_round ((w : ℚ) * s)
        rw [abs_sub_comm] at habs
        linarith [habs]
      · rw [hsnd, hcasth]
        have habs := abs_sub_round ((h : ℚ) * s)
        rw [abs_sub_comm] at habs
        linarith [habs]

/-- Witness for C5: a 600×400 source is untouched by 1200×800 maxima,
and a 3000-wide source obeys a 200 max width. -/
theorem optimize_resize_policy_witness :
    optimizeImageDims 600 400 (some 1200) (some 800) = (600, 400) ∧
    (optimizeImageDims 3000 2000 (some 200) none).1 ≤ 200 :=
  ⟨optimize_resize_policy.1 600 400 1200 800 (by decide) (by decide)
      (by decide) (by decide),
    (optimize_resize_policy.2 3000 2000 200 none (by decide) (by decide)
      (by decide)).1⟩

/-! ## C4: temporary files after a run -/

/-- For a remote source, the disk `optimizeImages` leaves behind is the
loop's disk with the downloaded source temp file truncated (written
empty — not removed). -/
theorem optimizeImages_snd_remote (env : OptEnv) (d : Disk) (source : String)
    (types : List ImageType) (hrem : strStartsWith source "http" = true) :
    (optimizeImages env d source types).2 =
      diskWrite
        ((if (saveToLocalImage env.fetched d source TMP_INPUT_IMAGES_DIR).1 = ""
          then (Except.error "Failed to get image path",
            (saveToLocalImage env.fetched d source TMP_INPUT_IMAGES_DIR).2)
          else optimizeLoop env types
            (saveToLocalImage env.fetched d source TMP_INPUT_IMAGES_DIR).2).2)
        (saveToLocalImage env.fetched d source TMP_INPUT_IMAGES_DIR).1 [] := by
  have hne := saveToLocalImage_fst_ne_empty env.fetched d source
    TMP_INPUT_IMAGES_DIR (by decide)
  simp [optimizeImages, hrem, hne]

/-- C4 counterexample: a remote-source run where `thumbnail` succeeds
and `full` then fails leaves the thumbnail's intermediate temp file on
disk with its full content `[7, 7]` — the `finally` blocks truncate only
the downloaded source file on this path, and even "cleanup" is
`Bun.write(file, "")`, which empties but does not remove. -/
theorem temp_file_remains_cex :
    diskRead
      (createOptimizedImages svcDemo envPartial [] [] "http://src.example/a.jpg"
        [ImageType.thumbnail, ImageType.full] "t0").2.2
      "./tmp/pre-processed-images/c7b99f1c681eaad2096f54c0380b8f950fa5cbe47cb3695ed590167c0dfff315.webp" =
      some [7, 7] := by rfl

/-- C4 (amended): cleanup truncates instead of removing, and only on
the paths it reaches: after a remote-source run whose optimization stage
succeeds, the downloaded source temp file and every per-variant
intermediate temp file still exist on disk, each with empty content
(the run's `finally` blocks write `""` over them); when a variant fails
during optimization, the intermediates of earlier variants are not
cleaned at all (the counterexample shows one surviving with full
content). -/
theorem cleanup_truncates (svc : ServiceConfig) (env : OptEnv) (store : Store)
    (d : Disk) (source : String) (types : List ImageType) (now : String)
    (imgs : List OptimizedWithConfig)
    (_himgs : (optimizeImages env d source types).1 = Except.ok imgs)
    (hrem : strStartsWith source "http" = true) :
    diskRead (optimizeImages env d source types).2
      (saveToLocalImage env.fetched d source TMP_INPUT_IMAGES_DIR).1 =
      some [] ∧
    (∀ img ∈ imgs,
      diskRead
        (uploadToCDN svc store imgs source now
          (optimizeImages env d source types).2).2.2 img.tempFilePath =
        some []) ∧
    diskRead
      (uploadToCDN svc store imgs source now
        (optimizeImages env d source types).2).2.2
      (saveToLocalImage env.fetched d source TMP_INPUT_IMAGES_DIR).1 =
      some [] := by
  have h1 : diskRead (optimizeImages env d source types).2
      (saveToLocalImage env.fetched d source TMP_INPUT_IMAGES_DIR).1 =
      some [] := by
    rw [optimizeImages_snd_remote env d source types hrem]
    exact diskRead_write_self _ _ _
  have hup : (uploadToCDN svc store imgs source now
      (optimizeImages env d source types).2).2.2 =
      (imgs.map (fun img => img.tempFilePath)).foldl
        (fun dd q => diskWrite dd q []) (optimizeImages env d source types).2 := by
    show imgs.foldl (fun dd img => diskWrite dd img.tempFilePath [])
        (optimizeImages env d source types).2 = _
    rw [List.foldl_map]
  refine ⟨h1, fun img hmem => ?_, ?_⟩
  · rw [hup, diskRead_foldl_truncate]
    rw [if_pos (List.mem_map_of_mem _ hmem)]
  · rw [hup, diskRead_foldl_truncate]
    by_cases hin : (saveToLocalImage env.fetched d source
        TMP_INPUT_IMAGES_DIR).1 ∈ imgs.map (fun img => img.tempFilePath)
    · rw [if_pos hin]
    · rw [if_neg hin]
      exact h1

/-- Witness for the amended C4 at a fully successful remote run with one
variant. -/
theorem cleanup_truncates_witness :
    diskRead
      (optimizeImages envAllOk [] "http://src.example/a.jpg"
        [ImageType.thumbnail]).2
      (saveToLocalImage envAllOk.fetched [] "http://src.example/a.jpg"
        TMP_INPUT_IMAGES_DIR).1 = some [] ∧
    diskRead
      (uploadToCDN svcDemo [] [imgThumbLit] "http://src.example/a.jpg" "t0"
        (optimizeImages envAllOk [] "http://src.example/a.jpg"
          [ImageType.thumbnail]).2).2.2 imgThumbLit.tempFilePath = some [] := by
  have h := cleanup_truncates svcDemo envAllOk [] [] "http://src.example/a.jpg"
    [ImageType.thumbnail] "t0" [imgThumbLit] (by rfl) (by rfl)
  exact ⟨h.1, h.2.1 imgThumbLit (by simp)⟩

end ImageOpt
